import Mathlib

/-!
# MediTrack — verification of the dose-scheduling and adherence-tracking engine

Shallow embedding of the core logic of the MediTrack application:

* `src/data/db.ts` — the storage helpers (`updateMedicineLogStatusLocal`,
  `getMedicinesForUserLocal`, `getMedicineLogsForDateLocal`,
  `deactivateMedicineLocal`, `deleteMedicineLogsForMedicine`,
  `createMedicineLogsForMedicine`);
* `src/hooks/useMedicineScheduler.ts` — the daily materialization pass
  (`createTodaysLogs`);
* `src/components/TodaysMedicines.tsx` — the status classifier
  (`isOffSchedule`, `isMissed`) and the `markTaken` mutation;
* `src/components/AddMedicineDialog.tsx` — the add/edit form submission
  (`handleSubmit`, the edit `mutation`'s destructive log resync).

Modelling conventions: timestamps are integer milliseconds since the epoch
(JavaScript `Date.getTime()`); a calendar date is its day index, obtained by
flooring a timestamp to days; wall-clock times are the literal `"HH:MM:SS"`
strings the code manipulates; the scheduler's fractional-hour arithmetic is
carried as an exact numerator over the fixed denominator `frequency`, with
JavaScript `Math.floor`/`Math.round` as integer division and half-up
rounding on that fraction; `uuidv4` id generation is modelled by an
injected id supply; `created_at` fields (written, never read by the
modelled logic) are omitted.
-/

namespace MediTrack

/-- Milliseconds per minute. -/
def msPerMin : Int := 60000

/-- Milliseconds per hour. -/
def msPerHour : Int := 3600000

/-- Milliseconds per day. -/
def msPerDay : Int := 86400000

/-- `dateOnly` from `useMedicineScheduler.ts`: a timestamp reduced to the
midnight of its calendar day, represented as the day index (floor division,
so it is correct for timestamps before the epoch as well). -/
def dateOnlyDays (ms : Int) : Int := ms.fdiv msPerDay

/-- The `timing` enum of a `Medicine`. -/
inductive Timing where
  | before_meal
  | after_meal
  | anytime
deriving DecidableEq, Repr

/-- The `status` enum of a `MedicineLog`. -/
inductive Status where
  | pending
  | taken
  | skipped
deriving DecidableEq, Repr

/-- The `Medicine` record of `src/data/db.ts`.  `start_date` is the stored
ISO timestamp as epoch milliseconds; `custom_dose_times` is `[]` when the
optional field is absent; `dose_interval_hours` is `none` when absent. -/
structure Medicine where
  id : String
  user_id : String
  name : String
  frequency : Nat
  timing : Timing
  start_date : Int
  duration_days : Nat
  is_active : Bool
  custom_dose_times : List String
  dose_interval_hours : Option Nat
deriving DecidableEq, Repr

/-- The `MedicineLog` record of `src/data/db.ts`.  `scheduled_date` is the
day index of the ISO date string; `scheduled_time` is the literal
`"HH:MM:SS"` string; `taken_at` is the stored ISO timestamp string
(`none` for null/absent). -/
structure MedicineLog where
  id : String
  medicine_id : String
  scheduled_date : Int
  scheduled_time : String
  status : Status
  taken_at : Option String
deriving DecidableEq, Repr

/-- JavaScript `String(n).padStart(2, "0")` for a non-negative number. -/
def pad2 (n : Nat) : String :=
  if n < 10 then "0" ++ toString n else toString n

/-- JavaScript `Math.round` (round half toward positive infinity) applied
to the non-negative fraction `num / den`: `⌊num / den + 1 / 2⌋`. -/
def jsRoundFrac (num den : Nat) : Nat := (2 * num + den) / (2 * den)

/-- `getMedicinesForUserLocal` (`db.ts`): the user's medicines whose
`is_active` flag is not `false`. -/
def getMedicinesForUserLocal (userId : String) (meds : List Medicine) :
    List Medicine :=
  meds.filter (fun m => m.user_id == userId && m.is_active)

/-- `getMedicineLogsForDateLocal` (`db.ts`): the logs scheduled on the given
date whose medicine is among the user's active medicines. -/
def getMedicineLogsForDateLocal (userId : String) (dateDay : Int)
    (meds : List Medicine) (logs : List MedicineLog) : List MedicineLog :=
  let ids := (getMedicinesForUserLocal userId meds).map (·.id)
  logs.filter (fun l => l.scheduled_date == dateDay && ids.contains l.medicine_id)

/-- `deleteMedicineLogsForMedicine` (`db.ts`): removes every log whose
`medicine_id` equals the given id. -/
def deleteMedicineLogsForMedicine (medicineId : String)
    (logs : List MedicineLog) : List MedicineLog :=
  logs.filter (fun l => !(l.medicine_id == medicineId))

/-- `updateMedicineLogStatusLocal` (`db.ts`): unconditionally writes the new
`status` and overwrites `taken_at` with `takenAt || new Date().toISOString()`
on the log with the given id; errors with "Log not found" when no log has
that id.  There is no check of the log's previous status. -/
def updateMedicineLogStatusLocal (logs : List MedicineLog) (logId : String)
    (status : Status) (takenAt : Option String) (nowIso : String) :
    Except String (List MedicineLog) :=
  let eff := match takenAt with
    | some t => if t = "" then nowIso else t
    | none => nowIso
  if logs.any (fun l => l.id == logId) then
    Except.ok (logs.map (fun l =>
      if l.id == logId then { l with status := status, taken_at := some eff }
      else l))
  else Except.error "Log not found"

/-- The `markTaken` mutation of `TodaysMedicines.tsx`: marks a log taken at
the current instant via `updateMedicineLogStatusLocal(logId, "taken", takenAt)`. -/
def markTaken (logs : List MedicineLog) (logId : String) (nowIso : String) :
    Except String (List MedicineLog) :=
  updateMedicineLogStatusLocal logs logId Status.taken (some nowIso) nowIso

/-- `deactivateMedicineLocal` (`db.ts`): sets `is_active := false` on the
medicine with the given id, touching nothing else; errors when absent. -/
def deactivateMedicineLocal (meds : List Medicine) (medicineId : String) :
    Except String (List Medicine) :=
  if meds.any (fun m => m.id == medicineId) then
    Except.ok (meds.map (fun m =>
      if m.id == medicineId then { m with is_active := false } else m))
  else Except.error "Medicine not found"

/-! ## Dose-time derivation: the daily scheduler (`useMedicineScheduler.ts`) -/

/-- One time string `"HH:MM:00"` from the fractional hour `n / f`, exactly
as the even-spacing loop of `createTodaysLogs` renders it:
`h = Math.floor(hour)`, `m = Math.round((hour - h) * 60)`.  The loop's
floating-point accumulator `hour = 8 + i * (24 / frequency)` is held as the
exact fraction `n / f`, so `h = n / f` (integer division) and `m` rounds
`(n % f) * 60 / f` to the nearest minute. -/
def hourString (f n : Nat) : String :=
  let h := n / f
  let m := jsRoundFrac ((n % f) * 60) f
  pad2 h ++ ":" ++ pad2 m ++ ":00"

/-- The even-spacing loop of `createTodaysLogs`: `k` more iterations over
the accumulator `hour = n / f`, each step adding `24 / f` (i.e. 24 to the
numerator). -/
def evenGo (f : Nat) : Nat → Nat → List String
  | 0, _ => []
  | k + 1, n => hourString f n :: evenGo f k (n + 24)

/-- The dose-time list computed by `createTodaysLogs` for one medicine:
the first `frequency` entries of the fixed slots `08:00/14:00/20:00` when
`frequency ≤ 3` and `timing ≠ anytime`, otherwise the even-spacing loop
starting at hour 8 (numerator `8 * frequency`) with step `24 / frequency`.
(The scheduler's own `Medicine` interface carries neither
`custom_dose_times` nor `dose_interval_hours`; this path never consults
them.) -/
def schedulerTimes (med : Medicine) : List String :=
  if med.frequency ≤ 3 ∧ med.timing ≠ Timing.anytime then
    (["08:00:00", "14:00:00", "20:00:00"]).take med.frequency
  else
    evenGo med.frequency med.frequency (8 * med.frequency)

/-- The guarded derivation of `createTodaysLogs`: skips (derives nothing)
when the medicine is inactive, or when today is before `dateOnly(start_date)`
or strictly after `start + duration_days` (the code's test is
`today < start || today > end` with `end = start + duration_days`, so the
end day itself is still derived). -/
def scheduleDerive (med : Medicine) (todayDay : Int) : List String :=
  if med.is_active = false then []
  else
    let start := dateOnlyDays med.start_date
    if todayDay < start ∨ todayDay > start + (med.duration_days : Int) then []
    else schedulerTimes med

/-- The `existingTimes` set of `createTodaysLogs`: scheduled times of the
fetched logs for today filtered to this medicine. -/
def existingTimesFor (userId : String) (todayDay : Int) (meds : List Medicine)
    (logs : List MedicineLog) (med : Medicine) : List String :=
  ((getMedicineLogsForDateLocal userId todayDay meds logs).filter
    (fun l => l.medicine_id == med.id)).map (·.scheduled_time)

/-- The pending log `createTodaysLogs` inserts for one missing time slot
(`createMedicineLogLocal` payload; the fresh uuid is supplied by `freshId`). -/
def mkPendingLog (freshId : String → String) (med : Medicine) (todayDay : Int)
    (t : String) : MedicineLog :=
  { id := freshId t, medicine_id := med.id, scheduled_date := todayDay,
    scheduled_time := t, status := Status.pending, taken_at := none }

/-- The inserts one iteration of `createTodaysLogs` performs for medicine
`med`: every derived time with no existing log for this medicine and time
becomes a new pending log for today. -/
def materializeInserts (freshId : String → String) (userId : String)
    (todayDay : Int) (meds : List Medicine) (logs : List MedicineLog)
    (med : Medicine) : List MedicineLog :=
  ((scheduleDerive med todayDay).filter
      (fun t => !((existingTimesFor userId todayDay meds logs med).contains t))).map
    (mkPendingLog freshId med todayDay)

/-- The log table after one `createTodaysLogs` iteration for `med`: the
pass only ever adds logs (`createMedicineLogLocal` is its sole write). -/
def materializeStep (freshId : String → String) (userId : String)
    (todayDay : Int) (meds : List Medicine) (logs : List MedicineLog)
    (med : Medicine) : List MedicineLog :=
  logs ++ materializeInserts freshId userId todayDay meds logs med

/-! ## Dose-time derivation: `createMedicineLogsForMedicine` (`db.ts`) -/

/-- The interval of the even-dosing branch of `createMedicineLogsForMedicine`:
`medicine.dose_interval_hours || Math.floor(15 / medicine.frequency)`
(JavaScript `||`, so an explicit `0` also falls back to the default). -/
def dbInterval (med : Medicine) : Nat :=
  match med.dose_interval_hours with
  | some n => if n = 0 then 15 / med.frequency else n
  | none => 15 / med.frequency

/-- The hour of each dose in the even-dosing branch: `hour = i * interval`
for `i = 0 .. frequency-1` (the loop starts at hour 0, not at 08:00). -/
def dbDoseHours (med : Medicine) : List Nat :=
  (List.range med.frequency).map (fun i => i * dbInterval med)

/-- The per-day `times` list of `createMedicineLogsForMedicine`: the stored
`custom_dose_times` verbatim when non-empty, otherwise `"HH:00:00"` strings
from `dbDoseHours` when `frequency > 0`, otherwise nothing. -/
def dbDoseTimes (med : Medicine) : List String :=
  if med.custom_dose_times ≠ [] then med.custom_dose_times
  else if 0 < med.frequency then
    (dbDoseHours med).map (fun h => pad2 h ++ ":00:00")
  else []

/-- The times `createMedicineLogsForMedicine` generates for day index `day`
of the regimen: the loop runs `day` over `[0, duration_days)` and skips a
day when `isAfter(today, scheduledDate)`, i.e. when the current instant is
strictly past `start_date + day` days. -/
def createLogsTimesForDay (med : Medicine) (nowMs : Int) (day : Nat) :
    List String :=
  if day < med.duration_days ∧ ¬ nowMs > med.start_date + (day : Int) * msPerDay
  then dbDoseTimes med
  else []

/-! ## Status classification (`TodaysMedicines.tsx`) -/

/-- Splitting a character list on `':'` (the model of
`String.prototype.split(":")`, written structurally so the kernel can
evaluate it). -/
def splitColonAux : List Char → List Char → List (List Char)
  | [], acc => [acc.reverse]
  | c :: rest, acc =>
    if c = ':' then acc.reverse :: splitColonAux rest []
    else splitColonAux rest (c :: acc)

/-- JavaScript `Number(s)` on a well-formed decimal digit string, as a fold
over its characters. -/
def digitsToNat : List Char → Nat → Nat
  | [], acc => acc
  | c :: rest, acc => digitsToNat rest (acc * 10 + (c.toNat - ('0').toNat))

/-- `time.split(":").map(Number)` destructured as `[h, m]`. -/
def parseHM (s : String) : Int × Int :=
  match splitColonAux s.toList [] with
  | h :: m :: _ => ((digitsToNat h 0 : Nat), (digitsToNat m 0 : Nat))
  | [h] => ((digitsToNat h 0 : Nat), 0)
  | [] => (0, 0)

/-- The log view of `TodaysMedicines.tsx` (its own `MedicineLog` interface):
`taken_at` is already parsed to epoch milliseconds (`none` for null). -/
structure CLog where
  scheduled_time : String
  status : Status
  taken_at : Option Int
deriving DecidableEq, Repr

/-- The scheduled instant the classifier builds: today's midnight plus the
parsed hours and minutes (`new Date()` followed by `setHours(h, m, 0, 0)`). -/
def scheduledInstant (midnightMs : Int) (time : String) : Int :=
  let hm := parseHM time
  midnightMs + hm.1 * msPerHour + hm.2 * msPerMin

/-- `isOffSchedule` (`TodaysMedicines.tsx`): false unless the log is taken
with a `taken_at`; otherwise true iff `taken_at - scheduled` is below
-2 hours or above +1 hour. -/
def isOffSchedule (log : CLog) (midnightMs : Int) : Bool :=
  match log.status, log.taken_at with
  | Status.taken, some takenMs =>
    let diffMs := takenMs - scheduledInstant midnightMs log.scheduled_time
    decide (diffMs < -2 * msPerHour ∨ diffMs > msPerHour)
  | Status.taken, none => false
  | _, _ => false

/-- `isMissed` (`TodaysMedicines.tsx`): false for a taken log; otherwise
true iff `now - scheduled` strictly exceeds one hour. -/
def isMissed (log : CLog) (midnightMs nowMs : Int) : Bool :=
  match log.status with
  | Status.taken => false
  | _ => decide (nowMs - scheduledInstant midnightMs log.scheduled_time > msPerHour)

/-! ## Add/edit medicine dialog (`AddMedicineDialog.tsx`) -/

/-- The form state `handleSubmit` reads: the name field, the parsed
frequency and duration, the custom-times toggle with its selected times,
and the interval selection (`none` when the dropdown is empty). -/
structure FormState where
  name : String
  frequency : Nat
  durationDays : Nat
  customTimes : Bool
  customDoseTimes : List String
  doseInterval : Option Nat
deriving DecidableEq, Repr

/-- The payload `handleSubmit` builds for `createMedicineLocal` in add mode
(enrichment fields from the medicine catalogue omitted). -/
structure Payload where
  user_id : String
  name : String
  frequency : Nat
  timing : Timing
  start_date : Int
  duration_days : Nat
  custom_dose_times : List String
  dose_interval_hours : Option Nat
deriving DecidableEq, Repr

/-- Result of a form submission: either a toast-and-return rejection (no
mutation runs) or the payload handed to `createMedicineLocal`. -/
inductive SubmitResult where
  | rejected (msg : String)
  | saved (p : Payload)
deriving DecidableEq, Repr

/-- JavaScript `String.prototype.toLowerCase`, as a character map (written
over the character list so the kernel can evaluate it). -/
def jsToLower (s : String) : String := String.mk (s.toList.map Char.toLower)

/-- `customDoseTimes.slice(0, freq)` from `handleSubmit`. -/
def trimmedTimes (form : FormState) : List String :=
  form.customDoseTimes.take form.frequency

/-- `trimmedTimes.filter(Boolean).length` from `handleSubmit`: the number
of non-empty selected custom dose times. -/
def filledCount (form : FormState) : Nat :=
  ((trimmedTimes form).filter (fun t => !(t == ""))).length

/-- The duplicate check of `handleSubmit` (add mode): over the user's
medicines as returned by `getMedicinesForUserLocal` (active only), find one
whose lowercased name matches the form's and whose validity end
(`start_date` plus `duration_days` days) is on or after now. -/
def duplicateCheck (userId : String) (form : FormState)
    (meds : List Medicine) (nowMs : Int) : Option Medicine :=
  (getMedicinesForUserLocal userId meds).find? (fun m =>
    jsToLower m.name == jsToLower form.name &&
    decide (m.start_date + (m.duration_days : Int) * msPerDay ≥ nowMs))

/-- `handleSubmit` of `AddMedicineDialog.tsx` in add mode (no
`editingMedicine`): field-presence guard, custom-dose-times count
validation, interval-required guard, then the duplicate check — a hit
rejects the submission — and finally the payload build with
`start_date := now`. -/
def handleSubmit (userId : String) (form : FormState) (timing : Timing)
    (meds : List Medicine) (nowMs : Int) : SubmitResult :=
  if form.name = "" then SubmitResult.rejected "Please fill in all fields"
  else if form.customTimes ∧ 0 < filledCount form ∧
      filledCount form ≠ form.frequency then
    SubmitResult.rejected "custom times count mismatch"
  else if ¬ form.customTimes ∧ form.frequency > 3 ∧
      form.doseInterval = none then
    SubmitResult.rejected "Please select an interval"
  else
    match duplicateCheck userId form meds nowMs with
    | some _ => SubmitResult.rejected "already active"
    | none =>
      SubmitResult.saved
        { user_id := userId, name := form.name, frequency := form.frequency,
          timing := timing, start_date := nowMs,
          duration_days := form.durationDays,
          custom_dose_times :=
            if form.customTimes then trimmedTimes form else [],
          dose_interval_hours :=
            if ¬ form.customTimes ∧ form.frequency > 3 then form.doseInterval
            else none }

/-- The edit `mutation` of `AddMedicineDialog.tsx`, restricted to its effect
on the log table: when the frequency or the custom-dose-times count changed
(`oldFreq !== newFreq || oldCustom !== (customTimes ? newFreq : 0)`) it
first deletes every log of the edited medicine; otherwise the logs are
untouched. -/
def editResyncLogs (old : Medicine) (newFreq : Nat) (customTimes : Bool)
    (logs : List MedicineLog) : List MedicineLog :=
  let oldCustom := old.custom_dose_times.length
  if old.frequency ≠ newFreq ∨ oldCustom ≠ (if customTimes then newFreq else 0)
  then deleteMedicineLogsForMedicine old.id logs
  else logs

/-- Whether a submission reached `createMedicineLocal` (true) or returned
early on a validation/duplicate toast (false). -/
def SubmitResult.isSaved : SubmitResult → Bool
  | SubmitResult.saved _ => true
  | SubmitResult.rejected _ => false

/-- The local database state: the `medicines` and `medicine_logs` tables. -/
structure DBState where
  medicines : List Medicine
  logs : List MedicineLog
deriving DecidableEq, Repr

/-- `deactivateMedicineLocal` as a transition on the whole database state:
it is a single `db.medicines.update`, so the log table is carried over
untouched. -/
def deactivateState (st : DBState) (medicineId : String) :
    Except String DBState :=
  match deactivateMedicineLocal st.medicines medicineId with
  | Except.ok meds' => Except.ok { medicines := meds', logs := st.logs }
  | Except.error e => Except.error e

/-- The database state `deactivateState` produces on success: the matching
medicine's `is_active` flipped to `false`, everything else untouched. -/
def deactivatedState (st : DBState) (medicineId : String) : DBState :=
  { medicines := st.medicines.map (fun m =>
      if m.id == medicineId then { m with is_active := false } else m),
    logs := st.logs }

/-- Field-by-field frame relation between a medicine and its deactivated
image: every field other than `is_active` is unchanged; the matching
medicine becomes inactive and any non-matching medicine is untouched. -/
def medFrame (medicineId : String) (m m' : Medicine) : Prop :=
  m'.id = m.id ∧ m'.user_id = m.user_id ∧ m'.name = m.name ∧
  m'.frequency = m.frequency ∧ m'.timing = m.timing ∧
  m'.start_date = m.start_date ∧ m'.duration_days = m.duration_days ∧
  m'.custom_dose_times = m.custom_dose_times ∧
  m'.dose_interval_hours = m.dose_interval_hours ∧
  (m.id = medicineId → m'.is_active = false) ∧
  (m.id ≠ medicineId → m' = m)

/-! ## Concrete fixtures for counterexamples and witnesses -/

/-- A twice-daily after-meal regimen starting on day 0 for one day. -/
def medTwiceDaily : Medicine :=
  { id := "m1", user_id := "u1", name := "Napa", frequency := 2,
    timing := Timing.after_meal, start_date := 0, duration_days := 1,
    is_active := true, custom_dose_times := [], dose_interval_hours := none }

/-- A four-times-daily regimen with an explicit 3-hour interval. -/
def medEvery3h : Medicine :=
  { medTwiceDaily with
    frequency := 4, duration_days := 7, dose_interval_hours := some 3 }

/-- A four-times-daily anytime regimen with no explicit interval. -/
def medEvenDefault : Medicine :=
  { medTwiceDaily with
    frequency := 4, timing := Timing.anytime, duration_days := 7 }

/-- A week-long regimen with the custom dose times
`["01:00:00", "13:00:00"]` stored. -/
def medCustom : Medicine :=
  { medTwiceDaily with
    duration_days := 7, custom_dose_times := ["01:00:00", "13:00:00"] }

/-- A log of `medTwiceDaily` already marked taken. -/
def logTaken : MedicineLog :=
  { id := "L1", medicine_id := "m1", scheduled_date := 0,
    scheduled_time := "08:00:00", status := Status.taken,
    taken_at := some "2025-01-01T08:30:00.000Z" }

/-- A pending log of a different medicine. -/
def logOther : MedicineLog :=
  { logTaken with
    id := "L2", medicine_id := "m2", status := Status.pending,
    taken_at := none }

/-- A deactivated medicine named Aspirin whose validity window still covers
the present. -/
def inactiveAspirin : Medicine :=
  { id := "m9", user_id := "u1", name := "Aspirin", frequency := 2,
    timing := Timing.after_meal, start_date := 0, duration_days := 10,
    is_active := false, custom_dose_times := [], dose_interval_hours := none }

/-- The same Aspirin regimen, still active. -/
def activeAspirin : Medicine :=
  { inactiveAspirin with id := "m8", is_active := true }

/-- A filled add-medicine form for Aspirin. -/
def aspirinForm : FormState :=
  { name := "Aspirin", frequency := 2, durationDays := 7,
    customTimes := false, customDoseTimes := [], doseInterval := none }

/-- A small database state with one medicine and two logs. -/
def demoState : DBState :=
  { medicines := [medTwiceDaily], logs := [logTaken, logOther] }

/-! ## Helper lemmas -/

theorem evenGo_length (f : Nat) : ∀ (k n : Nat),
    (evenGo f k n).length = k := by
  intro k
  induction k with
  | zero => intro n; rfl
  | succ j ih => intro n; simp [evenGo, ih]

/-! ## Claim theorems -/

/-- Claim C5: for a taken log, the classifier reports taken-off-schedule
iff `takenAt - scheduledInstant` is strictly below −2 hours or strictly
above +1 hour; otherwise the dose counts as taken-on-time (in particular,
exactly +1 hour late is on-time). -/
theorem C5_offSchedule_iff (log : CLog) (midnightMs takenMs : Int)
    (hst : log.status = Status.taken) (hta : log.taken_at = some takenMs) :
    isOffSchedule log midnightMs = true ↔
      (takenMs - scheduledInstant midnightMs log.scheduled_time < -2 * msPerHour ∨
       takenMs - scheduledInstant midnightMs log.scheduled_time > msPerHour) := by
  obtain ⟨t, st, ta⟩ := log
  simp only at hst hta
  subst hst hta
  simp [isOffSchedule]

/-- Witness for C5: a dose scheduled at 14:00 taken at 14:59 is on-time,
taken at 15:01 is off-schedule, and taken at exactly 15:00 (+1 hour) is
still on-time. -/
theorem C5_offSchedule_witness :
    isOffSchedule ⟨"14:00:00", Status.taken, some (14 * 3600000 + 59 * 60000)⟩ 0
        = false ∧
    isOffSchedule ⟨"14:00:00", Status.taken, some (15 * 3600000 + 60000)⟩ 0
        = true ∧
    isOffSchedule ⟨"14:00:00", Status.taken, some (15 * 3600000)⟩ 0 = false := by
  refine ⟨?_, ?_, ?_⟩
  · have h := C5_offSchedule_iff ⟨"14:00:00", Status.taken,
      some (14 * 3600000 + 59 * 60000)⟩ 0 (14 * 3600000 + 59 * 60000) rfl rfl
    rw [Bool.eq_false_iff]
    intro hb
    exact absurd (h.mp hb) (by decide)
  · exact (C5_offSchedule_iff ⟨"14:00:00", Status.taken,
      some (15 * 3600000 + 60000)⟩ 0 (15 * 3600000 + 60000) rfl rfl).mpr
      (by decide)
  · have h := C5_offSchedule_iff ⟨"14:00:00", Status.taken,
      some (15 * 3600000)⟩ 0 (15 * 3600000) rfl rfl
    rw [Bool.eq_false_iff]
    intro hb
    exact absurd (h.mp hb) (by decide)

/-- Claim C6: a still-pending log is classified missed iff `now` minus the
scheduled instant strictly exceeds one hour; at exactly +1 hour it is not
yet missed. -/
theorem C6_missed_iff (log : CLog) (midnightMs nowMs : Int)
    (hst : log.status = Status.pending) :
    isMissed log midnightMs nowMs = true ↔
      nowMs - scheduledInstant midnightMs log.scheduled_time > msPerHour := by
  obtain ⟨t, st, ta⟩ := log
  simp only at hst
  subst hst
  simp [isMissed]

/-- Witness for C6: a pending dose scheduled at 14:00 is missed when now is
15:01, and not yet missed when now is exactly 15:00. -/
theorem C6_missed_witness :
    isMissed ⟨"14:00:00", Status.pending, none⟩ 0 (15 * 3600000 + 60000) = true ∧
    isMissed ⟨"14:00:00", Status.pending, none⟩ 0 (15 * 3600000) = false := by
  constructor
  · exact (C6_missed_iff ⟨"14:00:00", Status.pending, none⟩ 0
      (15 * 3600000 + 60000) rfl).mpr (by decide)
  · have h := C6_missed_iff ⟨"14:00:00", Status.pending, none⟩ 0
      (15 * 3600000) rfl
    rw [Bool.eq_false_iff]
    intro hb
    exact absurd (h.mp hb) (by decide)

/-- Counterexample to claim C7: `medCustom` stores
`["01:00:00", "13:00:00"]`, yet derivation does not return that list for
every in-window date.  Day 2 lies inside the validity window `[0, 7)`, but
queried on day 3 `createMedicineLogsForMedicine` skips it
(`isAfter(today, scheduledDate)`) and derives nothing; and the daily
scheduler actually wired into the dashboard ignores `custom_dose_times`
entirely, deriving its fixed slots `08:00/14:00` for the in-window day 0
instead of the stored list. -/
theorem C7_counterexample :
    ((2 : Nat) < medCustom.duration_days ∧
      createLogsTimesForDay medCustom (3 * msPerDay) 2 = [] ∧
      createLogsTimesForDay medCustom (3 * msPerDay) 2 ≠
        medCustom.custom_dose_times) ∧
    (scheduleDerive medCustom 0 = ["08:00:00", "14:00:00"] ∧
      scheduleDerive medCustom 0 ≠ medCustom.custom_dose_times) := by
  refine ⟨⟨by decide, by decide, by decide⟩, by decide, by decide⟩

/-- Claim C7 as amended: for a regimen with custom dose times,
`createMedicineLogsForMedicine` generates exactly the stored custom time
list, verbatim and order-preserved, for each in-window day that is not
already past, and generates nothing for an in-window day that is already
past (now strictly after `start_date + day` days); the daily
today-scheduler ignores the stored custom dose times entirely — its
derivation is unchanged when they are erased. -/
theorem C7_custom_verbatim (med : Medicine) (nowMs : Int) (day : Nat)
    (hc : med.custom_dose_times ≠ [])
    (hday : day < med.duration_days) :
    (¬ nowMs > med.start_date + (day : Int) * msPerDay →
      createLogsTimesForDay med nowMs day = med.custom_dose_times) ∧
    (nowMs > med.start_date + (day : Int) * msPerDay →
      createLogsTimesForDay med nowMs day = []) ∧
    ∀ todayDay : Int, scheduleDerive med todayDay =
      scheduleDerive { med with custom_dose_times := [] } todayDay := by
  refine ⟨?_, ?_, ?_⟩
  · intro hpast
    unfold createLogsTimesForDay
    rw [if_pos ⟨hday, hpast⟩]
    unfold dbDoseTimes
    rw [if_pos hc]
  · intro hpast
    unfold createLogsTimesForDay
    rw [if_neg (fun hcl => hcl.2 hpast)]
  · intro todayDay
    obtain ⟨i, u, na, fr, ti, sd, du, ia, cd, dh⟩ := med
    rfl

/-- Witness for C7: `medCustom` derives its stored `["01:00:00",
"13:00:00"]` verbatim for the not-yet-past day 0, and nothing for the
already-past day 2 queried on day 3. -/
theorem C7_custom_verbatim_witness :
    createLogsTimesForDay medCustom 0 0 = medCustom.custom_dose_times ∧
    createLogsTimesForDay medCustom (3 * msPerDay) 2 = [] := by
  have h0 := C7_custom_verbatim medCustom 0 0 (by decide) (by decide)
  have h2 := C7_custom_verbatim medCustom (3 * msPerDay) 2 (by decide)
    (by decide)
  exact ⟨h0.1 (by decide), h2.2.1 (by decide)⟩

/-- Claim C8: when an edit changes the dosing shape (frequency or
custom-dose-time count differs), the resync deletes every log of that
medicine — taken ones included — so zero logs remain for it before
regeneration. -/
theorem C8_resync_deletes_all (old : Medicine) (newFreq : Nat)
    (customTimes : Bool) (logs : List MedicineLog)
    (hchange : old.frequency ≠ newFreq ∨
      old.custom_dose_times.length ≠ (if customTimes then newFreq else 0)) :
    (editResyncLogs old newFreq customTimes logs).filter
      (fun l => l.medicine_id == old.id) = [] := by
  unfold editResyncLogs
  rw [if_pos hchange]
  unfold deleteMedicineLogsForMedicine
  rw [List.filter_filter]
  apply List.filter_eq_nil_iff.mpr
  intro l _
  simp

/-- Counterexample to claim C1: `logTaken` is already in `taken` state
(status not `pending`), yet invoking markTaken on it is not a rejected
no-op: it returns success and overwrites the stored `taken_at` with the new
timestamp, so the stored state changes and no `AlreadyTaken` signal is
raised. -/
theorem C1_counterexample :
    logTaken.status ≠ Status.pending ∧
    markTaken [logTaken] "L1" "2025-01-02T09:00:00.000Z" =
      Except.ok [{ logTaken with
        status := Status.taken,
        taken_at := some "2025-01-02T09:00:00.000Z" }] ∧
    some "2025-01-02T09:00:00.000Z" ≠ logTaken.taken_at := by
  refine ⟨by decide, rfl, by decide⟩

/-- Claim C1 as amended: `updateMedicineLogStatusLocal` performs no
pending-status validation, so markTaken on a log whose status is not
`pending` (in particular one already `taken`) is not rejected and is not a
no-op: it succeeds and unconditionally sets `status := taken` and
overwrites `taken_at` with the new timestamp, leaving logs with other ids
untouched; no `AlreadyTaken` signal exists (the only failure is
`Log not found` for an absent id). -/
theorem C1_markTaken_no_guard (logs : List MedicineLog)
    (logId nowIso : String) (l : MedicineLog) (hl : l ∈ logs)
    (hid : l.id = logId) (hst : l.status ≠ Status.pending) :
    markTaken logs logId nowIso = Except.ok (logs.map (fun x =>
      if x.id == logId then
        { x with status := Status.taken, taken_at := some nowIso }
      else x)) := by
  unfold markTaken updateMedicineLogStatusLocal
  rw [if_pos (List.any_eq_true.mpr ⟨l, hl, by simp [hid]⟩)]
  simp [ite_self]

/-- Witness for C1: marking the already-taken `logTaken` again succeeds and
replaces its `taken_at`. -/
theorem C1_markTaken_no_guard_witness :
    markTaken [logTaken] "L1" "2025-01-03T10:00:00.000Z" =
      Except.ok [{ logTaken with
        status := Status.taken,
        taken_at := some "2025-01-03T10:00:00.000Z" }] := by
  have h := C1_markTaken_no_guard [logTaken] "L1" "2025-01-03T10:00:00.000Z"
    logTaken (by simp) rfl (by decide)
  simpa using h

/-- Counterexample to claim C2: day 1 lies outside the half-open window
`[startDate, startDate + durationDays) = [0, 1)` of the active
`medTwiceDaily`, yet the materialization pass still derives its full
2 dose times there (the code skips only when `today > start + duration`,
so the end day itself is derived). -/
theorem C2_counterexample :
    medTwiceDaily.is_active = true ∧
    ¬ (dateOnlyDays medTwiceDaily.start_date ≤ 1 ∧
        1 < dateOnlyDays medTwiceDaily.start_date +
          (medTwiceDaily.duration_days : Int)) ∧
    scheduleDerive medTwiceDaily 1 = ["08:00:00", "14:00:00"] ∧
    (scheduleDerive medTwiceDaily 1).length = medTwiceDaily.frequency := by
  refine ⟨rfl, by decide, by decide, by decide⟩

/-- Claim C2 as amended: for an active regimen with `frequency = n`
(1..10), the materialization pass derives exactly `n` dose times — and
creates exactly `n` pending logs when none exist — whenever today lies in
the closed window `[startDate, startDate + durationDays]` (date-only, end
day included), and derives zero dose times when today falls outside that
closed window or `isActive` is false. -/
theorem C2_derive_count (med : Medicine) (todayDay : Int)
    (hf : 1 ≤ med.frequency) :
    ((med.is_active = true ∧ dateOnlyDays med.start_date ≤ todayDay ∧
        todayDay ≤ dateOnlyDays med.start_date + (med.duration_days : Int)) →
      (scheduleDerive med todayDay).length = med.frequency ∧
      ∀ (freshId : String → String) (userId : String) (meds : List Medicine),
        (materializeInserts freshId userId todayDay meds [] med).length
          = med.frequency) ∧
    ((med.is_active = false ∨ todayDay < dateOnlyDays med.start_date ∨
        dateOnlyDays med.start_date + (med.duration_days : Int) < todayDay) →
      scheduleDerive med todayDay = []) := by
  constructor
  · rintro ⟨hact, hlo, hhi⟩
    have hlen : (schedulerTimes med).length = med.frequency := by
      unfold schedulerTimes
      split
      · next h =>
        simp [List.length_take, Nat.min_eq_left h.1]
      · exact evenGo_length _ _ _
    have hderive : scheduleDerive med todayDay = schedulerTimes med := by
      unfold scheduleDerive
      rw [if_neg (by simp [hact]), if_neg (by omega)]
    refine ⟨hderive ▸ hlen, ?_⟩
    intro freshId userId meds
    unfold materializeInserts
    rw [List.length_map]
    have hempty : existingTimesFor userId todayDay meds [] med = [] := rfl
    rw [hempty]
    simp [hderive, hlen, List.filter_eq_self]
  · intro hout
    unfold scheduleDerive
    rcases hout with hact | hwin | hwin
    · rw [if_pos hact]
    · by_cases hact : med.is_active = false
      · rw [if_pos hact]
      · rw [if_neg hact, if_pos (Or.inl hwin)]
    · by_cases hact : med.is_active = false
      · rw [if_pos hact]
      · rw [if_neg hact, if_pos (Or.inr hwin)]

/-- Witness for C2: `medTwiceDaily` (frequency 2) derives its 2 times on
day 0, inserts 2 pending logs into an empty table, and derives nothing on
day 2 (outside even the closed window) or when inactive. -/
theorem C2_derive_count_witness :
    (scheduleDerive medTwiceDaily 0).length = medTwiceDaily.frequency ∧
    (materializeInserts (fun t => t) "u1" 0 [medTwiceDaily] []
      medTwiceDaily).length = medTwiceDaily.frequency ∧
    scheduleDerive medTwiceDaily 2 = [] := by
  have h0 := C2_derive_count medTwiceDaily 0 (by decide)
  have h2 := C2_derive_count medTwiceDaily 2 (by decide)
  have hin := h0.1 ⟨rfl, by decide, by decide⟩
  exact ⟨hin.1, hin.2 (fun t => t) "u1" [medTwiceDaily],
    h2.2 (Or.inr (Or.inr (by decide)))⟩

/-- Counterexample to claim C4: `medEvery3h` has `frequency = 4` and
`dose_interval_hours = 3`, yet `createMedicineLogsForMedicine` derives
`["00:00:00", "03:00:00", "06:00:00", "09:00:00"]` — the loop computes
`hour = i * interval`, starting at midnight — and not the claimed
`["08:00:00", "11:00:00", "14:00:00", "17:00:00"]`. -/
theorem C4_counterexample :
    dbDoseTimes medEvery3h = ["00:00:00", "03:00:00", "06:00:00", "09:00:00"] ∧
    dbDoseTimes medEvery3h ≠ ["08:00:00", "11:00:00", "14:00:00", "17:00:00"] := by
  refine ⟨by decide, by decide⟩

/-- Claim C4 as amended: on the even-interval path of
`createMedicineLogsForMedicine` (no custom times), the derived dose times
start at 00:00 — not 08:00 — and add `intervalHours` per step for
`frequency` steps (`i-th` time is `i * intervalHours` o'clock), where
`intervalHours`, when not explicitly set, defaults to
`floor(15 / frequency)` hours, which is at least 1 for any frequency up to
15. -/
theorem C4_dbDoseTimes_even (med : Medicine)
    (hc : med.custom_dose_times = []) (hf : 1 ≤ med.frequency) :
    (dbDoseTimes med).length = med.frequency ∧
    (dbDoseTimes med)[0]? = some "00:00:00" ∧
    (∀ i, i < med.frequency →
      (dbDoseTimes med)[i]? = some (pad2 (i * dbInterval med) ++ ":00:00")) ∧
    (med.dose_interval_hours = none → dbInterval med = 15 / med.frequency) ∧
    (med.dose_interval_hours = none → med.frequency ≤ 15 →
      1 ≤ dbInterval med) := by
  have hform : dbDoseTimes med =
      (dbDoseHours med).map (fun h => pad2 h ++ ":00:00") := by
    unfold dbDoseTimes
    rw [if_neg (by simp [hc]), if_pos (by omega)]
  have hidx : ∀ i, i < med.frequency →
      (dbDoseTimes med)[i]? = some (pad2 (i * dbInterval med) ++ ":00:00") := by
    intro i hi
    rw [hform]
    unfold dbDoseHours
    rw [List.getElem?_map, List.getElem?_map, List.getElem?_range hi]
    rfl
  refine ⟨?_, ?_, hidx, ?_, ?_⟩
  · rw [hform]
    unfold dbDoseHours
    simp
  · have h0 := hidx 0 (by omega)
    rw [h0, Nat.zero_mul]
    decide
  · intro hnone
    unfold dbInterval
    rw [hnone]
  · intro hnone hle
    unfold dbInterval
    rw [hnone]
    exact Nat.one_le_div_iff (by omega) |>.mpr hle

/-- Witness for C4: `medEvenDefault` (frequency 4, no explicit interval)
defaults to `floor(15 / 4) = 3` hours and derives
`00:00 / 03:00 / 06:00 / 09:00`. -/
theorem C4_dbDoseTimes_even_witness :
    (dbDoseTimes medEvenDefault).length = medEvenDefault.frequency ∧
    (dbDoseTimes medEvenDefault)[0]? = some "00:00:00" ∧
    (dbDoseTimes medEvenDefault)[1]? =
      some (pad2 (1 * dbInterval medEvenDefault) ++ ":00:00") ∧
    dbInterval medEvenDefault = 15 / medEvenDefault.frequency := by
  have h := C4_dbDoseTimes_even medEvenDefault rfl (by decide)
  exact ⟨h.1, h.2.1, h.2.2.1 1 (by decide), h.2.2.2.1 rfl⟩

/-- Witness for C8: raising `medTwiceDaily`'s frequency from 2 to 3 wipes
all of its logs — including the already-taken `logTaken` — while logs of
other medicines survive untouched. -/
theorem C8_resync_deletes_all_witness :
    (editResyncLogs medTwiceDaily 3 false [logTaken, logOther]).filter
      (fun l => l.medicine_id == medTwiceDaily.id) = [] := by
  exact C8_resync_deletes_all medTwiceDaily 3 false [logTaken, logOther]
    (Or.inl (by decide))

/-- Counterexample to claim C9: `inactiveAspirin` belongs to user u1, has
the same name as the submitted form (case-insensitively) and its validity
end date (day 10) is after the current time (day 5) — so by the claim the
submission must be rejected — yet `handleSubmit` saves the new medicine,
because the duplicate check only scans `getMedicinesForUserLocal`, which
filters to active medicines. -/
theorem C9_counterexample :
    (inactiveAspirin.user_id = "u1" ∧
      jsToLower inactiveAspirin.name = jsToLower aspirinForm.name ∧
      5 * msPerDay ≤ inactiveAspirin.start_date +
        (inactiveAspirin.duration_days : Int) * msPerDay) ∧
    (handleSubmit "u1" aspirinForm Timing.after_meal [inactiveAspirin]
      (5 * msPerDay)).isSaved = true := by
  refine ⟨⟨rfl, by decide, by decide⟩, by decide⟩

/-- Claim C9 as amended: submitting the add-medicine form is rejected (no
medicine is created) whenever another **active** medicine of that user with
the same name (compared case-insensitively) still has a validity end date
(`start_date + duration_days`) on or after the current time; deactivated
medicines do not block re-adding the name. -/
theorem C9_active_duplicate_rejects (userId : String) (form : FormState)
    (timing : Timing) (meds : List Medicine) (nowMs : Int)
    (hdup : ∃ m ∈ meds, m.user_id = userId ∧ m.is_active = true ∧
      jsToLower m.name = jsToLower form.name ∧
      nowMs ≤ m.start_date + (m.duration_days : Int) * msPerDay) :
    (handleSubmit userId form timing meds nowMs).isSaved = false := by
  obtain ⟨m, hm, hu, ha, hn, he⟩ := hdup
  have hdupsome : duplicateCheck userId form meds nowMs ≠ none := by
    rw [Ne, duplicateCheck, List.find?_eq_none]
    push_neg
    refine ⟨m, ?_, ?_⟩
    · exact List.mem_filter.mpr ⟨hm, by simp [getMedicinesForUserLocal, hu, ha]⟩
    · simp [hn, he]
  unfold handleSubmit
  split
  · rfl
  · split
    · rfl
    · split
      · rfl
      · split
        · rfl
        · next hfind => exact absurd hfind hdupsome

/-- Witness for C9: with the still-active `activeAspirin` on file, the same
form is rejected. -/
theorem C9_active_duplicate_rejects_witness :
    (handleSubmit "u1" aspirinForm Timing.after_meal [activeAspirin]
      (5 * msPerDay)).isSaved = false := by
  exact C9_active_duplicate_rejects "u1" aspirinForm Timing.after_meal
    [activeAspirin] (5 * msPerDay)
    ⟨activeAspirin, by simp, rfl, rfl, by decide, by decide⟩

/-- Claim C10: deactivating a medicine only flips its `is_active` flag to
false and deletes nothing — every other field of every medicine and the
whole log table are unchanged — yet, because the medicine list and the
per-date log query filter to active medicines, the deactivated medicine
disappears from `getMedicinesForUserLocal` and its logs no longer appear in
`getMedicineLogsForDateLocal` even though they remain in storage. -/
theorem C10_deactivate_frame (st : DBState) (medicineId : String)
    (hmem : ∃ m ∈ st.medicines, m.id = medicineId) :
    deactivateState st medicineId =
      Except.ok (deactivatedState st medicineId) ∧
    (deactivatedState st medicineId).logs = st.logs ∧
    List.Forall₂ (medFrame medicineId) st.medicines
      (deactivatedState st medicineId).medicines ∧
    (∀ userId : String, ∀ m' ∈ getMedicinesForUserLocal userId
        (deactivatedState st medicineId).medicines, m'.id ≠ medicineId) ∧
    (∀ (userId : String) (dateDay : Int),
      ∀ l ∈ getMedicineLogsForDateLocal userId dateDay
        (deactivatedState st medicineId).medicines
        (deactivatedState st medicineId).logs,
      l.medicine_id ≠ medicineId) := by
  obtain ⟨m0, hm0, hid0⟩ := hmem
  have hnoactive : ∀ userId : String, ∀ m' ∈ getMedicinesForUserLocal userId
      (deactivatedState st medicineId).medicines, m'.id ≠ medicineId := by
    intro userId m' hm'
    obtain ⟨hmem', hcond⟩ := List.mem_filter.mp hm'
    obtain ⟨m, hm, rfl⟩ := List.mem_map.mp hmem'
    by_cases hc : (m.id == medicineId) = true
    · rw [if_pos hc] at hcond
      simp at hcond
    · rw [if_neg hc] at hcond ⊢
      simpa using hc
  refine ⟨?_, rfl, ?_, hnoactive, ?_⟩
  · unfold deactivateState deactivateMedicineLocal
    rw [if_pos (List.any_eq_true.mpr ⟨m0, hm0, by simp [hid0]⟩)]
    rfl
  · unfold deactivatedState
    rw [List.forall₂_map_right_iff]
    apply List.forall₂_same.mpr
    intro m hm
    by_cases hc : (m.id == medicineId) = true
    · rw [if_pos hc]
      unfold medFrame
      refine ⟨rfl, rfl, rfl, rfl, rfl, rfl, rfl, rfl, rfl, fun _ => rfl, ?_⟩
      intro hne
      exact absurd (by simpa using hc) hne
    · rw [if_neg hc]
      unfold medFrame
      exact ⟨rfl, rfl, rfl, rfl, rfl, rfl, rfl, rfl, rfl,
        fun h => absurd h (by simpa using hc), fun _ => rfl⟩
  · intro userId dateDay l hl
    obtain ⟨_, hcond⟩ := List.mem_filter.mp hl
    have hids : ((getMedicinesForUserLocal userId
        (deactivatedState st medicineId).medicines).map (·.id)).contains
          l.medicine_id = true := by
      exact (Bool.and_eq_true _ _ |>.mp hcond).2
    obtain ⟨x, hx, hxid⟩ := List.mem_map.mp (by simpa using hids)
    intro hfalse
    exact hnoactive userId x hx (hxid.trans hfalse)

/-- Witness for C10: deactivating `medTwiceDaily` in `demoState` succeeds,
keeps both logs in storage, and removes them from the today view. -/
theorem C10_deactivate_frame_witness :
    deactivateState demoState "m1" =
      Except.ok (deactivatedState demoState "m1") ∧
    (deactivatedState demoState "m1").logs = demoState.logs := by
  have h := C10_deactivate_frame demoState "m1"
    ⟨medTwiceDaily, by simp [demoState], rfl⟩
  exact ⟨h.1, h.2.1⟩

theorem getLogsForDate_append (userId : String) (d : Int)
    (meds : List Medicine) (L1 L2 : List MedicineLog) :
    getMedicineLogsForDateLocal userId d meds (L1 ++ L2) =
      getMedicineLogsForDateLocal userId d meds L1 ++
        getMedicineLogsForDateLocal userId d meds L2 := by
  unfold getMedicineLogsForDateLocal
  apply List.filter_append

theorem existingTimesFor_append (userId : String) (d : Int)
    (meds : List Medicine) (L1 L2 : List MedicineLog) (med : Medicine) :
    existingTimesFor userId d meds (L1 ++ L2) med =
      existingTimesFor userId d meds L1 med ++
        existingTimesFor userId d meds L2 med := by
  unfold existingTimesFor
  rw [getLogsForDate_append, List.filter_append, List.map_append]

theorem mem_existingTimes_of_insert (freshId : String → String)
    (userId : String) (todayDay : Int) (meds : List Medicine)
    (logs : List MedicineLog) (med : Medicine) (t : String)
    (hmem : med ∈ meds) (hact : med.is_active = true)
    (huser : med.user_id = userId)
    (ht : t ∈ scheduleDerive med todayDay)
    (hnot : t ∉ existingTimesFor userId todayDay meds logs med) :
    t ∈ existingTimesFor userId todayDay meds
      (materializeInserts freshId userId todayDay meds logs med) med := by
  unfold existingTimesFor
  apply List.mem_map.mpr
  refine ⟨mkPendingLog freshId med todayDay t, ?_, rfl⟩
  apply List.mem_filter.mpr
  refine ⟨?_, by simp [mkPendingLog]⟩
  unfold getMedicineLogsForDateLocal
  apply List.mem_filter.mpr
  constructor
  · unfold materializeInserts
    apply List.mem_map.mpr
    refine ⟨t, ?_, rfl⟩
    apply List.mem_filter.mpr
    exact ⟨ht, by simp [hnot]⟩
  · apply Bool.and_eq_true _ _ |>.mpr
    refine ⟨by simp [mkPendingLog], ?_⟩
    have : med.id ∈ (getMedicinesForUserLocal userId meds).map (·.id) :=
      List.mem_map.mpr ⟨med,
        List.mem_filter.mpr ⟨hmem, by simp [huser, hact]⟩, rfl⟩
    simpa [mkPendingLog] using this

theorem materializeInserts_eq_nil (freshId : String → String)
    (userId : String) (todayDay : Int) (meds : List Medicine)
    (logs : List MedicineLog) (med : Medicine)
    (h : ∀ t ∈ scheduleDerive med todayDay,
      t ∈ existingTimesFor userId todayDay meds logs med) :
    materializeInserts freshId userId todayDay meds logs med = [] := by
  unfold materializeInserts
  rw [List.map_eq_nil_iff]
  apply List.filter_eq_nil_iff.mpr
  intro t ht
  simp [h t ht]

/-- Claim C3: running the today-materialization a second time over the
state produced by the first run performs zero new inserts — each
`(medicine, date, time)` slot is emitted only when no log for that medicine
and scheduled time already exists — and the today path never deletes or
mutates an existing log (it is insert-only: the new state is the old table
plus the new pending logs). -/
theorem C3_materialize_idempotent (freshId fresh2 : String → String)
    (userId : String) (todayDay : Int) (meds : List Medicine)
    (logs : List MedicineLog) (med : Medicine)
    (hmem : med ∈ meds) (hact : med.is_active = true)
    (huser : med.user_id = userId) :
    materializeInserts fresh2 userId todayDay meds
      (materializeStep freshId userId todayDay meds logs med) med = [] ∧
    ∀ l ∈ logs, l ∈ materializeStep freshId userId todayDay meds logs med := by
  constructor
  · apply materializeInserts_eq_nil
    intro t ht
    rw [materializeStep, existingTimesFor_append]
    by_cases hold : t ∈ existingTimesFor userId todayDay meds logs med
    · exact List.mem_append_left _ hold
    · exact List.mem_append_right _
        (mem_existingTimes_of_insert freshId userId todayDay meds logs med t
          hmem hact huser ht hold)
  · intro l hl
    rw [materializeStep]
    exact List.mem_append_left _ hl

/-- Witness for C3: materializing `medTwiceDaily` on day 0 over an empty
table and then materializing again inserts nothing the second time, and the
first run's state extends the original table. -/
theorem C3_materialize_idempotent_witness :
    materializeInserts (fun t => "b-" ++ t) "u1" 0 [medTwiceDaily]
      (materializeStep (fun t => "a-" ++ t) "u1" 0 [medTwiceDaily] []
        medTwiceDaily) medTwiceDaily = [] ∧
    ∀ l ∈ ([] : List MedicineLog),
      l ∈ materializeStep (fun t => "a-" ++ t) "u1" 0 [medTwiceDaily] []
        medTwiceDaily := by
  exact C3_materialize_idempotent (fun t => "a-" ++ t) (fun t => "b-" ++ t)
    "u1" 0 [medTwiceDaily] [] medTwiceDaily (by simp) rfl rfl

end MediTrack
